import Mathlib

/-!
Shallow embedding of the SWES stress-propagation engine (Python sources under
src/) over exact rational arithmetic, together with proofs and refutations of
the behavioural claims about it.  Monetary amounts and market variables are
modelled as rationals; the Python code uses IEEE floats, but every property
below is algebraic and the spec itself states them "to floating-point
tolerance".
-/

namespace SWES

/-- Mirror of the six-scalar liquidity position (agents/base.py, class
LiquidityPosition). -/
structure LiquidityPosition where
  B0 : ℚ := 0
  B1 : ℚ := 0
  B2 : ℚ := 0
  B3 : ℚ := 0
  E1 : ℚ := 0
  E2 : ℚ := 0
deriving Repr, DecidableEq

/-- The slice of market.py MarketState that the embedded agent code reads:
vix level, the cumulative 10y/30y gilt yield moves, gilt bid-ask spread and
repo market availability. -/
structure MarketState where
  vixLevel : ℚ := 15
  gilt10yYieldChgBps : ℚ := 0
  gilt30yYieldChgBps : ℚ := 0
  giltBidAskSpreadBps : ℚ := 2
  repoAvailPct : ℚ := 1
deriving Repr, DecidableEq

/-- MarketState.__init__ values of the fields above (market.py lines 39-44). -/
def initMarket : MarketState := {}

/-- The repo-availability / spread effect of
MarketState.apply_exogenous_scenario (market.py lines 74, 84-88): the day's
vix is stored, spreads scale with vix/15 and repo availability is reset to
max(0.5, 1 - (vix/15 - 1) * 0.15). -/
def applyExogenousScenario (m : MarketState) (vix : ℚ) : MarketState :=
  let stressIntensity := vix / 15
  { m with
    vixLevel := vix
    giltBidAskSpreadBps := 2 * stressIntensity
    repoAvailPct := max (1/2) (1 - (stressIntensity - 1) * (15/100)) }

/-- The repo-availability / spread effect of
MarketState.apply_endogenous_feedback (market.py lines 109-118): accumulated
repo demand erodes availability, floored at 0.5, and gilt selling widens the
bid-ask spread.  The endogenous accumulators are passed in as arguments. -/
def applyEndogenousFeedback (m : MarketState) (repoDemand giltSelling : ℚ) :
    MarketState :=
  { m with
    repoAvailPct := max (1/2) (m.repoAvailPct - repoDemand / 50000 * (25/100))
    giltBidAskSpreadBps := m.giltBidAskSpreadBps + giltSelling * (1/1000) }

/-- One call into MarketState during a run: either an exogenous scenario
application (carrying the day's vix) or an endogenous feedback pass (carrying
the accumulated repo demand and gilt selling). -/
inductive MarketEvent where
  | exo (vix : ℚ)
  | endo (repoDemand giltSelling : ℚ)
deriving Repr, DecidableEq

/-- Dispatch a MarketEvent to the matching update function. -/
def marketStep (m : MarketState) : MarketEvent → MarketState
  | .exo vix => applyExogenousScenario m vix
  | .endo demand selling => applyEndogenousFeedback m demand selling

/-- BaseAgent.should_react (agents/base.py lines 83-86): false when B0 <= 0,
otherwise the strict test E1/B0 > theta. -/
def shouldReact (theta : ℚ) (lp : LiquidityPosition) : Bool :=
  if lp.B0 ≤ 0 then false
  else decide (lp.E1 / lp.B0 > theta)

/-- BaseAgent.compute_stage1 (agents/base.py lines 73-81) restricted to the
liquidity position: E1 := mtm + margin + redemptions and B1 := B0 - E1.  The
three loss components are computed by variant-specific hooks and passed in. -/
def computeStage1 (lp : LiquidityPosition) (mtm margin red : ℚ) :
    LiquidityPosition :=
  let e1 := mtm + margin + red
  { lp with E1 := e1, B1 := lp.B0 - e1 }

/-- BaseAgent.apply_stage3 (agents/base.py lines 123-125): E2 accumulates the
new contribution and B3 is re-derived as B2 minus the accumulated E2. -/
def applyStage3 (lp : LiquidityPosition) (e2 : ℚ) : LiquidityPosition :=
  let newE2 := lp.E2 + e2
  { lp with E2 := newE2, B3 := lp.B2 - newE2 }

/-- BaseAgent.reset_daily (agents/base.py lines 150-154) restricted to the
liquidity position: clears E1 and E2. -/
def resetDaily (lp : LiquidityPosition) : LiquidityPosition :=
  { lp with E1 := 0, E2 := 0 }

/-- Python str.startswith on character lists: startsWithL s p is true when p
is an initial segment of s. -/
def startsWithL : List Char → List Char → Bool
  | _, [] => true
  | [], _ :: _ => false
  | c :: s, d :: p => (c == d) && startsWithL s p

/-- Python substring containment ("sub in s") on character lists. -/
def hasSubL : List Char → List Char → Bool
  | [], pat => pat.isEmpty
  | c :: s, pat => startsWithL (c :: s) pat || hasSubL s pat

/-- The per-reaction mitigation accumulation step of BaseAgent.compute_stage2
(agents/base.py lines 102-113): an action starting with "sell_" realises at
max(0.5, 1 - gilt bid-ask spread / 100); otherwise an action containing
"repo" realises at the current repo-market availability, one containing "boe"
at 0.95, one containing "redeem" at 0.90, and anything else at 0.80. -/
def mitigationStep (m : MarketState) (acc : ℚ) (p : String × ℚ) : ℚ :=
  if startsWithL p.1.toList "sell_".toList then
    acc + p.2 * max (1/2) (1 - m.giltBidAskSpreadBps / 100)
  else if hasSubL p.1.toList "repo".toList then acc + p.2 * m.repoAvailPct
  else if hasSubL p.1.toList "boe".toList then acc + p.2 * (19/20)
  else if hasSubL p.1.toList "redeem".toList then acc + p.2 * (9/10)
  else acc + p.2 * (4/5)

/-- The mitigation loop of BaseAgent.compute_stage2 (agents/base.py lines
101-113). -/
def mitigationOf (m : MarketState) (reactions : List (String × ℚ)) : ℚ :=
  reactions.foldl (mitigationStep m) 0

/-- The agent state read and written by stage 2: threshold, liquidity
position, has-reacted flag and the current day's reaction map (an ordered
association list, as the Python dict preserves insertion order). -/
structure Stage2State where
  theta : ℚ
  lp : LiquidityPosition
  hasReacted : Bool
  reactions : List (String × ℚ)
deriving Repr, DecidableEq

/-- BaseAgent.compute_stage2 (agents/base.py lines 93-114).  The reactions
that compute_reactions would return are passed in as newReactions.  The
cumulative reporting counters updated on lines 115-121 are not part of the
liquidity state and are omitted here. -/
def computeStage2 (m : MarketState) (st : Stage2State)
    (newReactions : List (String × ℚ)) : Stage2State :=
  if shouldReact st.theta st.lp = false then
    { st with hasReacted := false, reactions := [],
              lp := { st.lp with B2 := st.lp.B1 } }
  else
    { st with hasReacted := true, reactions := newReactions,
              lp := { st.lp with B2 := st.lp.B1 + mitigationOf m newReactions } }

/-- The action-type-specific realisation rate as a standalone function of the
action name, used to state the claim's characterisation of stage-2
mitigation. -/
def claimRealisationRate (m : MarketState) (a : String) : ℚ :=
  if startsWithL a.toList "sell_".toList then
    max (1/2) (1 - m.giltBidAskSpreadBps / 100)
  else if hasSubL a.toList "repo".toList then m.repoAvailPct
  else if hasSubL a.toList "boe".toList then 19/20
  else if hasSubL a.toList "redeem".toList then 9/10
  else 4/5

/-- One agent's inputs to _compute_amplification (engine/simulation.py lines
112-137): the initial buffer recorded before the day loop, and the agent's
final-day B1 and B3. -/
structure AmpRow where
  b0 : ℚ
  b1 : ℚ
  b3 : ℚ
deriving Repr, DecidableEq

/-- The per-agent flooring epsilon 0.001 used in the aggregated amplification
(engine/simulation.py lines 125-126 and 133-134). -/
def ampEps : ℚ := 1/1000

/-- Denominator of the System-Wide amplification: the sum over agents of
max(B0 - B1, 0.001) (engine/simulation.py line 133). -/
def totalDirect (rows : List AmpRow) : ℚ :=
  (rows.map (fun r => max (r.b0 - r.b1) ampEps)).sum

/-- Numerator of the System-Wide amplification: the sum over agents of
max(B0 - B3, 0.001) (engine/simulation.py line 134). -/
def totalWithFeedback (rows : List AmpRow) : ℚ :=
  (rows.map (fun r => max (r.b0 - r.b3) ampEps)).sum

/-- The System-Wide amplification figure (engine/simulation.py line 135):
total_t / total_d when total_d > 0, else the neutral default 1.0. -/
def systemWideAmp (rows : List AmpRow) : ℚ :=
  if 0 < totalDirect rows then totalWithFeedback rows / totalDirect rows else 1

/-- The System-Wide amplification as the claim words it: numerator
(sum of B0) - (sum of B3) with no per-agent flooring, denominator the sum of
per-agent-floored direct losses. -/
def claimSystemWideAmp (rows : List AmpRow) : ℚ :=
  if 0 < totalDirect rows then
    ((rows.map AmpRow.b0).sum - (rows.map AmpRow.b3).sum) / totalDirect rows
  else 1

/-- The five agent variants (config.py, AgentType). -/
inductive AgentType where
  | bank
  | hedgeFund
  | ldiPension
  | insurer
  | oefMMF
deriving Repr, DecidableEq

/-- What the stage-3 pass reads about one connected bank when the feedback
target is a hedge fund (engine/feedback.py lines 47-60). -/
structure BankFeedbackView where
  hasReacted : Bool
  reactionSize : ℚ
  B0 : ℚ
deriving Repr, DecidableEq

/-- What the stage-3 pass reads about one connected hedge fund when the
feedback target is a bank (engine/feedback.py lines 64-76): has-reacted
flag, E1, B0, the hedge fund's Repo Borrowing item (absent item contributes
zero) and its number of connected banks. -/
structure HFFeedbackView where
  hasReacted : Bool
  E1 : ℚ
  B0 : ℚ
  repoBorrowing : Option ℚ
  nConnectedBanks : ℕ
deriving Repr, DecidableEq

/-- What the stage-3 pass reads about one redeeming NBFI when the feedback
target is a pooled fund (engine/feedback.py lines 80-86). -/
structure RedeemerView where
  hasReacted : Bool
  reactionSize : ℚ
deriving Repr, DecidableEq

/-- One liquid balance-sheet item as read by the market-broadcast channel
(engine/feedback.py lines 90-94): amount and the item's sensitivity values. -/
structure LiquidItemView where
  amount : ℚ
  sensitivities : List ℚ
deriving Repr, DecidableEq

/-- Bilateral channel for a hedge-fund target (engine/feedback.py lines
44-60): each connected reacting bank adds repoBorrowing * (bank reaction
size / max(bank B0, 1)) * s * 0.05; nothing is added when the target has no
Repo Borrowing item. -/
def hfBilateral (s : ℚ) (repoBorrowing : Option ℚ)
    (banks : List BankFeedbackView) : ℚ :=
  banks.foldl (fun acc b =>
    if b.hasReacted then
      match repoBorrowing with
      | some repo => acc + repo * (b.reactionSize / max b.B0 1) * s * (5/100)
      | none => acc
    else acc) 0

/-- Bilateral channel for a bank target (engine/feedback.py lines 62-76):
each connected reacting hedge fund adds its stress ratio E1/max(B0,1) times
its per-bank repo exposure times the coefficient 0.005 times s. -/
def bankBilateral (s : ℚ) (hfs : List HFFeedbackView) : ℚ :=
  hfs.foldl (fun acc hf =>
    if hf.hasReacted then
      let hfStress := hf.E1 / max hf.B0 1
      let hfRepo := match hf.repoBorrowing with | some x => x | none => 0
      let bilateralExposure := hfRepo / max (hf.nConnectedBanks : ℚ) 1
      acc + hfStress * bilateralExposure * (5/1000) * s
    else acc) 0

/-- Bilateral channel for a pooled-fund target (engine/feedback.py lines
78-86): each connected reacting NBFI adds 10% of its total reaction size. -/
def oefBilateral (redeemers : List RedeemerView) : ℚ :=
  redeemers.foldl (fun acc n =>
    if n.hasReacted then acc + n.reactionSize * (1/10) else acc) 0

/-- Market-broadcast channel (engine/feedback.py lines 88-94): every liquid
item contributes amount * |sensitivity| * 0.0001 * s * 0.05 scaled by the
system-wide reacting fraction, for each of its sensitivities. -/
def marketBroadcast (s reactingFrac : ℚ) (items : List LiquidItemView) : ℚ :=
  items.foldl (fun acc it =>
    acc + (it.sensitivities.map
      (fun sens => it.amount * |sens| * (1/10000) * s * (5/100) * reactingFrac)).sum) 0

/-- The stage-3 feedback target as read by compute_stage3_feedback: agent
type, has-reacted flag, total reaction size, the Repo Borrowing item (hedge
funds) and the liquid balance-sheet items. -/
structure FeedbackTarget where
  type : AgentType
  hasReacted : Bool
  reactionSize : ℚ
  repoBorrowing : Option ℚ
  liquidItems : List LiquidItemView
deriving Repr, DecidableEq

/-- The E2 contribution compute_stage3_feedback applies to one target in one
iteration (engine/feedback.py lines 30-112).  s = max(1, vix/15); sqrtS
stands for np.sqrt(s) in the reputation channel (line 98) and is passed as a
parameter because square roots are irrational; the nonnegativity theorem
assumes only 1 <= sqrtS, which np.sqrt guarantees for s >= 1.  When no agent
reacted system-wide the pass applies 0 to everyone (lines 32-35). -/
def stage3Contribution (vix sqrtS : ℚ)
    (numReacting numAgents sameTypeReacting sameTypeTotal : ℕ)
    (banks : List BankFeedbackView) (hfs : List HFFeedbackView)
    (redeemers : List RedeemerView) (t : FeedbackTarget) : ℚ :=
  if numReacting = 0 then 0
  else
    let s := max 1 (vix / 15)
    let bilateral :=
      match t.type with
      | .hedgeFund => hfBilateral s t.repoBorrowing banks
      | .bank => bankBilateral s hfs
      | .oefMMF => oefBilateral redeemers
      | _ => 0
    let broadcast :=
      marketBroadcast s ((numReacting : ℚ) / (numAgents : ℚ)) t.liquidItems
    let reputationTerm :=
      if t.hasReacted then t.reactionSize * (sqrtS - 1) * (15/100) else 0
    let crowding :=
      if 0 < sameTypeTotal ∧ t.hasReacted then
        t.reactionSize *
          (((sameTypeReacting : ℚ) / (sameTypeTotal : ℚ)) ^ 2 * s * (3/100))
      else 0
    bilateral + broadcast + reputationTerm + crowding

/-- The feedback-disabled branch of run_simulation (engine/simulation.py
lines 82-85): every agent gets E2 := 0 and B3 := B2. -/
def disableFeedback (lp : LiquidityPosition) : LiquidityPosition :=
  { lp with E2 := 0, B3 := lp.B2 }

/-- One agent's final state in two runs that agree up to stage 2 and differ
only in the enable_feedback flag: shared b0 and b1, and the final B3 of the
feedback-on and feedback-off runs. -/
structure AmpPairRow where
  b0 : ℚ
  b1 : ℚ
  b3On : ℚ
  b3Off : ℚ
deriving Repr, DecidableEq

/-- Projection of a paired row to the feedback-enabled run. -/
def onRow (r : AmpPairRow) : AmpRow :=
  { b0 := r.b0, b1 := r.b1, b3 := r.b3On }

/-- Projection of a paired row to the feedback-disabled run. -/
def offRow (r : AmpPairRow) : AmpRow :=
  { b0 := r.b0, b1 := r.b1, b3 := r.b3Off }

/-- The keyword parameters accepted by BaseAgent.__init__ (agents/base.py
line 32).  Python raises TypeError when a call passes a keyword argument
outside the callee's parameter list. -/
def baseAgentInitKeywords : List String :=
  [ "name", "agent_type", "theta", "size_factor" ]

/-- The keyword arguments BankAgent.__init__ passes to super().__init__
(agents/bank.py lines 14-15), including buffer_usability. -/
def bankSuperKeywords : List String :=
  [ "name", "agent_type", "theta", "size_factor", "buffer_usability" ]

/-- The keyword arguments HedgeFundAgent.__init__ passes to super().__init__
(agents/hedge_fund.py line 24). -/
def hedgeFundSuperKeywords : List String :=
  [ "name", "agent_type", "theta", "size_factor" ]

/-- The keyword arguments LDIPensionAgent.__init__ passes to
super().__init__ (agents/ldi_pension.py line 16). -/
def ldiSuperKeywords : List String :=
  [ "name", "agent_type", "theta", "size_factor" ]

/-- The keyword arguments InsurerAgent.__init__ passes to super().__init__
(agents/insurer.py line 16). -/
def insurerSuperKeywords : List String :=
  [ "name", "agent_type", "theta", "size_factor" ]

/-- The keyword arguments OEFMMFAgent.__init__ passes to super().__init__
(agents/oef_mmf.py line 15). -/
def oefSuperKeywords : List String :=
  [ "name", "agent_type", "theta", "size_factor" ]

/-- Python keyword-argument semantics for a function without **kwargs: the
call binds iff every passed keyword is among the accepted parameters. -/
def superCallAccepted (passed : List String) : Bool :=
  passed.all (fun k => baseAgentInitKeywords.contains k)

/-- A node of the relationship network: agent name and type tag. -/
structure NetAgent where
  name : String
  type : AgentType
deriving Repr, DecidableEq

/-- The four typed edge lists of RelationshipNetwork (network.py lines
27-32).  Bank-edge pairs are (bank name, counterparty name); redemption
pairs are (NBFI name, pooled-fund name). -/
structure Net where
  bankHFEdges : List (String × String) := []
  bankLDIEdges : List (String × String) := []
  bankInsurerEdges : List (String × String) := []
  nbfiOEFEdges : List (String × String) := []
deriving Repr, DecidableEq

/-- RelationshipNetwork.get_connected_hfs (network.py lines 100-102). -/
def getConnectedHFs (net : Net) (bankName : String) : List String :=
  (net.bankHFEdges.filter (fun e => e.1 == bankName)).map (fun e => e.2)

/-- RelationshipNetwork.get_connected_banks (network.py lines 104-106). -/
def getConnectedBanks (net : Net) (hfName : String) : List String :=
  (net.bankHFEdges.filter (fun e => e.2 == hfName)).map (fun e => e.1)

/-- RelationshipNetwork.get_connected_ldis (network.py lines 108-110). -/
def getConnectedLDIs (net : Net) (bankName : String) : List String :=
  (net.bankLDIEdges.filter (fun e => e.1 == bankName)).map (fun e => e.2)

/-- The inline comprehension over bank_insurer_edges used in
BankAgent.assess_repo_request (agents/bank.py line 158). -/
def getConnectedInsurers (net : Net) (bankName : String) : List String :=
  (net.bankInsurerEdges.filter (fun e => e.1 == bankName)).map (fun e => e.2)

/-- RelationshipNetwork.get_oef_redeemers (network.py lines 116-118). -/
def getOEFRedeemers (net : Net) (oefName : String) : List String :=
  (net.nbfiOEFEdges.filter (fun e => e.2 == oefName)).map (fun e => e.1)

/-- RelationshipNetwork.build_network (network.py lines 34-98) with the
numpy randomness abstracted into oracles: for each hedge fund, LDI fund and
insurer name, the oracle returns the banks drawn for it by rng.choice
(distinct members of the bank list, their count bounded by the rng.integers
call: 2-3 for hedge funds, 1-2 for LDI funds, 1-3 for insurers); pickOEFs
returns each NBFI's redemption targets.  The theorems take those numpy
contracts as hypotheses.  The agent list is filtered by type exactly as in
the source, and each loop appends one edge per chosen bank. -/
def buildNetwork (agents : List NetAgent)
    (pickBanksForHF pickBanksForLDI pickBanksForInsurer pickOEFs :
      String → List NetAgent) : Net :=
  let hfs := agents.filter (fun a => a.type == AgentType.hedgeFund)
  let ldis := agents.filter (fun a => a.type == AgentType.ldiPension)
  let insurers := agents.filter (fun a => a.type == AgentType.insurer)
  { bankHFEdges :=
      hfs.flatMap (fun hf => (pickBanksForHF hf.name).map (fun b => (b.name, hf.name)))
    bankLDIEdges :=
      ldis.flatMap (fun l => (pickBanksForLDI l.name).map (fun b => (b.name, l.name)))
    bankInsurerEdges :=
      insurers.flatMap
        (fun i => (pickBanksForInsurer i.name).map (fun b => (b.name, i.name)))
    nbfiOEFEdges :=
      (hfs ++ ldis ++ insurers).flatMap
        (fun n => (pickOEFs n.name).map (fun o => (n.name, o.name))) }

/-- The number of bank edges incident to a node: entries of the three
bank-edge lists mentioning the name on either side. -/
def bankDegree (net : Net) (nm : String) : ℕ :=
  (net.bankHFEdges.filter (fun e => e.1 == nm || e.2 == nm)).length +
  (net.bankLDIEdges.filter (fun e => e.1 == nm || e.2 == nm)).length +
  (net.bankInsurerEdges.filter (fun e => e.1 == nm || e.2 == nm)).length

/-- The bank-side state read by assess_repo_request (agents/bank.py lines
147-170): liquidity position, risk appetite, repo capacity and current
willingness to extend new repo. -/
structure BankState where
  lp : LiquidityPosition
  riskAppetite : ℚ
  repoCapacity : ℚ
  willingnessToExtendNew : ℚ
deriving Repr, DecidableEq

/-- FEEDBACK_PARAMS bank_repo_refusal_stress_threshold = 0.266353
(config.py lines 146-156). -/
def bankRepoRefusalStressThreshold : ℚ := 266353/1000000

/-- The connected counterparties a bank checks in assess_repo_request
(agents/bank.py lines 156-159): connected hedge funds, then LDI funds, then
insurers. -/
def allConnectedTo (net : Net) (bankName : String) : List String :=
  getConnectedHFs net bankName ++ getConnectedLDIs net bankName ++
    getConnectedInsurers net bankName

/-- BankAgent.assess_repo_request (agents/bank.py lines 147-170): 0 for an
unconnected requester; otherwise min(amount, capacity * willingness-to-
extend-new * risk appetite * stress scaling), where the stress ratio is
E1 / max(B0, 1) and the scaling decays linearly to 0 at the refusal
threshold.  (The network is always present here; the Python network-is-None
early return is outside the claim.) -/
def assessRepoRequest (net : Net) (bankName : String) (bk : BankState)
    (requester : String) (amount : ℚ) : ℚ :=
  if requester ∈ allConnectedTo net bankName then
    let stressRatio := bk.lp.E1 / max bk.lp.B0 1
    let stressScaling := max 0 (1 - stressRatio / bankRepoRefusalStressThreshold)
    let available := bk.repoCapacity * bk.willingnessToExtendNew
    min amount (available * bk.riskAppetite * stressScaling)
  else 0

/-- assess_repo_request as the claim words it: identical to the source
except that the bank's stress ratio is E1/B0 rather than E1/max(B0, 1). -/
def claimAssessRepoRequest (net : Net) (bankName : String) (bk : BankState)
    (requester : String) (amount : ℚ) : ℚ :=
  if requester ∈ allConnectedTo net bankName then
    let stressRatio := bk.lp.E1 / bk.lp.B0
    let stressScaling := max 0 (1 - stressRatio / bankRepoRefusalStressThreshold)
    let available := bk.repoCapacity * bk.willingnessToExtendNew
    min amount (available * bk.riskAppetite * stressScaling)
  else 0

/-- What OEFMMFAgent.compute_redemptions reads about one redeeming NBFI
(agents/oef_mmf.py lines 90-114): type tag, size factor, E1 and B0. -/
structure NBFIView where
  type : AgentType
  sizeFactor : ℚ
  E1 : ℚ
  B0 : ℚ
deriving Repr, DecidableEq

/-- The OEF/MMF agent state read and written by compute_redemptions and
compute_reactions (agents/oef_mmf.py): investor-base weights, liquidity
position, the three reaction-relevant balance-sheet amounts, and the
cumulative redemption-inflow counter (line 46). -/
structure OEFState where
  aum : ℚ
  pensionInvestorPct : ℚ
  insurerInvestorPct : ℚ
  lp : LiquidityPosition
  cashBuffer : ℚ
  giltHoldings : ℚ
  corpHoldings : ℚ
  cumulativeRedemptionInflows : ℚ
deriving Repr, DecidableEq

/-- The redemption total computed by OEFMMFAgent.compute_redemptions
(agents/oef_mmf.py lines 88-114): each connected NBFI with stress ratio
E1/B0 above 0.3 (0 when B0 <= 0) contributes size_factor * 0.001 * stress,
scaled by an investor-type-specific weight. -/
def oefRedemptionsValue (st : OEFState) (redeemers : List NBFIView) : ℚ :=
  redeemers.foldl (fun acc n =>
    let stressRatio := if 0 < n.B0 then n.E1 / n.B0 else 0
    if 3/10 < stressRatio then
      let base := n.sizeFactor * (1/1000) * stressRatio
      let weighted :=
        match n.type with
        | .ldiPension => base * (st.pensionInvestorPct * 2)
        | .insurer => base * (st.insurerInvestorPct * (3/2))
        | .hedgeFund => base * (1/2)
        | _ => base
      acc + weighted
    else acc) 0

/-- OEFMMFAgent.compute_redemptions (agents/oef_mmf.py lines 74-117): the
return value, and the state after the call — line 116 adds the returned
total to cumulative_redemption_inflows_mm. -/
def computeRedemptions (st : OEFState) (redeemers : List NBFIView) :
    ℚ × OEFState :=
  let v := oefRedemptionsValue st redeemers
  (v, { st with cumulativeRedemptionInflows := st.cumulativeRedemptionInflows + v })

/-- OEFMMFAgent.compute_reactions (agents/oef_mmf.py lines 119-156): the
cash-buffer / sell-gilt / sell-corp waterfall with the REACTION_PARAMS
oef_mmf caps (config.py lines 105-109), followed by the swing-pricing step,
which triggers when the cumulative redemption inflow exceeds 15% of AUM. -/
def oefComputeReactions (st : OEFState) : List (String × ℚ) :=
  let shortfall0 := max 0 (-st.lp.B1) + st.lp.E1 * (1/10)
  let step1 :=
    if 0 < st.cashBuffer then
      let use := min (shortfall0 * (1/2)) (st.cashBuffer * (7/10))
      ([("use_cash_buffer", use)], shortfall0 - use)
    else ([], shortfall0)
  let step2 :=
    if 0 < step1.2 ∧ 0 < st.giltHoldings then
      let sell := min (step1.2 * (10/100)) (st.giltHoldings * (20/100))
      (step1.1 ++ [("sell_gilt", sell)], step1.2 - sell)
    else step1
  let step3 :=
    if 0 < step2.2 ∧ 0 < st.corpHoldings then
      let sell := min (step2.2 * (8/100)) (st.corpHoldings * (2/100))
      (step2.1 ++ [("sell_corp_bonds", sell)], step2.2 - sell)
    else step2
  if 0 < step3.2 ∧ 0 < st.aum ∧
      15/100 < st.cumulativeRedemptionInflows / st.aum then
    step3.1 ++ [("swing_pricing", step3.2 * (2/10))]
  else step3.1

/-- One balance-sheet item as read by BaseAgent.compute_initial_buffer
(agents/base.py lines 54-58): name, amount and category string. -/
structure BSItem where
  name : String
  amount : ℚ
  category : String
deriving Repr, DecidableEq

/-- BaseAgent.compute_initial_buffer (agents/base.py lines 54-58): B0 :=
(sum of liquid_asset amounts) - (sum of liability amounts), written into the
liquidity position and also returned; only the stored position is modelled
here, the return value being its B0 field. -/
def computeInitialBuffer (bs : List BSItem) (lp : LiquidityPosition) :
    LiquidityPosition :=
  let liquid := ((bs.filter (fun i => i.category == "liquid_asset")).map
    (fun i => i.amount)).sum
  let liab := ((bs.filter (fun i => i.category == "liability")).map
    (fun i => i.amount)).sum
  { lp with B0 := liquid - liab }

/-- The slice of LDIPensionAgent state read and written by
compute_margin_calls (agents/ldi_pension.py lines 74-97): the Derivatives
Exposure notional (absent item returns 0 without touching state), the
fund's yield buffer in bps and the consumed-fraction field rewritten on
line 89. -/
structure LDIState where
  derivNotional : Option ℚ
  yieldBufferBps : ℚ
  yieldBufferConsumedPct : ℚ
deriving Repr, DecidableEq

/-- LDIPensionAgent.compute_margin_calls (agents/ldi_pension.py lines
74-97): VM from the max of the 10y/30y gilt moves, an IM add-on above the
vix baseline, the buffer-breach escalation once the cumulative 10y move
exceeds the fund's yield buffer, and the (idempotent) rewrite of
yield_buffer_consumed_pct. -/
def ldiComputeMarginCalls (m : MarketState) (st : LDIState) : ℚ × LDIState :=
  match st.derivNotional with
  | none => (0, st)
  | some deriv =>
    let giltMove := max |m.gilt10yYieldChgBps| |m.gilt30yYieldChgBps|
    let vm := deriv * giltMove * (1/10000) * (4/100)
    let stress := m.vixLevel / 15
    let imIncrease := deriv * max 0 (stress - 1) * (3/1000)
    let cumulativeGiltMove := |m.gilt10yYieldChgBps|
    let consumed := min 1 (cumulativeGiltMove / st.yieldBufferBps)
    let vm2 :=
      if 1 ≤ consumed then
        vm + deriv * (cumulativeGiltMove - st.yieldBufferBps) * (1/10000) * (6/100)
      else vm
    (vm2 + imIncrease, { st with yieldBufferConsumedPct := consumed })

/-- A concrete pooled-fund state: AUM 1000, empty reaction instruments, a
day-1 shortfall (B1 = -10, E1 = 5) and a zeroed redemption counter. -/
def oefSt0 : OEFState :=
  { aum := 1000, pensionInvestorPct := 0, insurerInvestorPct := 0,
    lp := { B1 := -10, E1 := 5 }, cashBuffer := 0, giltHoldings := 0,
    corpHoldings := 0, cumulativeRedemptionInflows := 0 }

/-- A concrete redeemer list: one hedge fund of size 500000 with stress
ratio 2/5, contributing 500000 * 0.001 * 0.4 * 0.5 = 100 per call. -/
def oefRs : List NBFIView :=
  [{ type := .hedgeFund, sizeFactor := 500000, E1 := 2, B0 := 5 }]

/-- A concrete five-agent population: three banks, one hedge fund, one
pooled fund. -/
def demoAgents : List NetAgent :=
  [ { name := "B1", type := .bank }, { name := "B2", type := .bank },
    { name := "B3", type := .bank }, { name := "H", type := .hedgeFund },
    { name := "O", type := .oefMMF } ]

/-- A concrete pick oracle giving every hedge fund the banks B1 and B2. -/
def demoPickHF : String → List NetAgent :=
  fun _ => [ { name := "B1", type := .bank }, { name := "B2", type := .bank } ]

/-- The empty pick oracle. -/
def demoPickNone : String → List NetAgent := fun _ => []

/-- The network built from the demo population. -/
def demoNet : Net :=
  buildNetwork demoAgents demoPickHF demoPickNone demoPickNone demoPickNone

end SWES

namespace SWES

/-- C1: should_react is true iff B0 > 0 and E1/B0 > theta; in particular it is
false whenever B0 <= 0, regardless of E1. -/
theorem shouldReact_iff (theta : ℚ) (lp : LiquidityPosition) :
    shouldReact theta lp = true ↔ 0 < lp.B0 ∧ theta < lp.E1 / lp.B0 := by
  unfold shouldReact
  split
  · next h => simp [not_lt.mpr h]
  · next h => simp [lt_of_not_le h]

/-- Folding apply_stage3 never touches B2. -/
theorem applyStage3_foldl_B2 (es : List ℚ) (lp : LiquidityPosition) :
    (es.foldl applyStage3 lp).B2 = lp.B2 := by
  induction es generalizing lp with
  | nil => rfl
  | cons e es ih => simpa [applyStage3] using ih (applyStage3 lp e)

/-- Folding apply_stage3 accumulates exactly the sum of the contributions. -/
theorem applyStage3_foldl_E2 (es : List ℚ) (lp : LiquidityPosition) :
    (es.foldl applyStage3 lp).E2 = lp.E2 + es.sum := by
  induction es generalizing lp with
  | nil => simp
  | cons e es ih =>
    simp only [List.foldl_cons, List.sum_cons]
    rw [ih]
    simp [applyStage3]
    ring

/-- The identity B3 = B2 - E2, once established, is preserved by folding
further apply_stage3 calls. -/
theorem applyStage3_foldl_B3 (es : List ℚ) (lp : LiquidityPosition)
    (h : lp.B3 = lp.B2 - lp.E2) :
    (es.foldl applyStage3 lp).B3 =
      (es.foldl applyStage3 lp).B2 - (es.foldl applyStage3 lp).E2 := by
  induction es generalizing lp with
  | nil => exact h
  | cons e es ih =>
    exact ih (applyStage3 lp e) (by simp [applyStage3])

/-- C2: after compute_stage1 the position satisfies B1 = B0 - E1, and after
every apply_stage3 call (here: after folding a nonempty list of stage-3
contributions over a position whose E2 was reset to zero at the start of the
day) the position satisfies B3 = B2 - E2 with E2 equal to the sum of the
contributions applied so far. -/
theorem stage1_stage3_invariants (lp lq : LiquidityPosition)
    (mtm margin red e : ℚ) (es : List ℚ) (h0 : lq.E2 = 0) :
    (computeStage1 lp mtm margin red).B1 =
      (computeStage1 lp mtm margin red).B0 -
        (computeStage1 lp mtm margin red).E1 ∧
    ((e :: es).foldl applyStage3 lq).B3 =
      ((e :: es).foldl applyStage3 lq).B2 -
        ((e :: es).foldl applyStage3 lq).E2 ∧
    ((e :: es).foldl applyStage3 lq).E2 = (e :: es).sum := by
  refine ⟨by simp [computeStage1], ?_, ?_⟩
  · simp only [List.foldl_cons]
    exact applyStage3_foldl_B3 es (applyStage3 lq e) (by simp [applyStage3])
  · rw [applyStage3_foldl_E2, h0]
    simp

/-- Witness for C2 at a concrete position and contribution list. -/
theorem stage1_stage3_invariants_witness :
    ({ B0 := 7, B2 := 4, E2 := 0 } : LiquidityPosition).E2 = 0 ∧
    (computeStage1 { B0 := 7, B2 := 4, E2 := 0 } 1 2 3).B1 =
      (computeStage1 { B0 := 7, B2 := 4, E2 := 0 } 1 2 3).B0 -
        (computeStage1 { B0 := 7, B2 := 4, E2 := 0 } 1 2 3).E1 ∧
    (((2 : ℚ) :: [3]).foldl applyStage3 { B0 := 7, B2 := 4, E2 := 0 }).B3 =
      (((2 : ℚ) :: [3]).foldl applyStage3 { B0 := 7, B2 := 4, E2 := 0 }).B2 -
        (((2 : ℚ) :: [3]).foldl applyStage3 { B0 := 7, B2 := 4, E2 := 0 }).E2 ∧
    (((2 : ℚ) :: [3]).foldl applyStage3 { B0 := 7, B2 := 4, E2 := 0 }).E2 =
      ((2 : ℚ) :: [3]).sum :=
  ⟨rfl,
    stage1_stage3_invariants { B0 := 7, B2 := 4, E2 := 0 }
      { B0 := 7, B2 := 4, E2 := 0 } 1 2 3 2 [3] rfl⟩

/-- Each market update leaves repo availability at or above 1/2. -/
theorem marketStep_repoAvail (m : MarketState) (ev : MarketEvent) :
    1/2 ≤ (marketStep m ev).repoAvailPct := by
  cases ev with
  | exo vix => exact le_max_left _ _
  | endo d g => exact le_max_left _ _

/-- C10: starting from the initial market state (availability 1.0), repo
market availability never falls below 0.5 after any sequence of exogenous
scenario applications and endogenous feedback passes, whatever the scenario
severity or accumulated repo demand. -/
theorem repo_availability_floor (evs : List MarketEvent) :
    1/2 ≤ (evs.foldl marketStep initMarket).repoAvailPct := by
  have step : ∀ (m : MarketState) (l : List MarketEvent),
      1/2 ≤ m.repoAvailPct → 1/2 ≤ (l.foldl marketStep m).repoAvailPct := by
    intro m l
    induction l generalizing m with
    | nil => exact fun h => h
    | cons ev l ih =>
      intro _
      exact ih (marketStep m ev) (marketStep_repoAvail m ev)
  exact step initMarket evs (by norm_num [initMarket])

/-- One mitigation step adds exactly amount times the action's realisation
rate. -/
theorem mitigationStep_eq (m : MarketState) (acc : ℚ) (p : String × ℚ) :
    mitigationStep m acc p = acc + p.2 * claimRealisationRate m p.1 := by
  unfold mitigationStep claimRealisationRate
  split_ifs <;> rfl

/-- The stage-2 mitigation loop computes the sum over the reactions of amount
times the action-specific realisation rate. -/
theorem mitigationOf_eq_sum (m : MarketState) (r : List (String × ℚ)) :
    mitigationOf m r = (r.map (fun p => p.2 * claimRealisationRate m p.1)).sum := by
  have gen : ∀ (l : List (String × ℚ)) (acc : ℚ),
      l.foldl (mitigationStep m) acc =
        acc + (l.map (fun p => p.2 * claimRealisationRate m p.1)).sum := by
    intro l
    induction l with
    | nil => intro acc; simp
    | cons p l ih =>
      intro acc
      simp only [List.foldl_cons, List.map_cons, List.sum_cons]
      rw [ih, mitigationStep_eq]
      ring
  simpa using gen r 0

/-- C3 (amended): compute_stage2 sets B2 = B1 and records no reactions when
should_react is false; otherwise B2 = B1 plus the sum over reactions of
amount times the realisation rate, where actions starting with "sell_"
realise at max(0.5, 1 - gilt bid-ask spread/100), actions containing "repo"
at the current repo-market availability, actions containing "boe" at 0.95,
actions containing "redeem" at 0.90, and all others at 0.80.  In particular
the insurer's committed-repo-line draw (draw_repo_line) realises at the
repo-market availability and its RCF draw (draw_rcf) at 0.80, while the
bank's BoE facility draw realises at 0.95. -/
theorem stage2_mitigation (m : MarketState) (st : Stage2State)
    (r : List (String × ℚ)) :
    (shouldReact st.theta st.lp = false →
      (computeStage2 m st r).lp.B2 = st.lp.B1 ∧
      (computeStage2 m st r).reactions = [] ∧
      (computeStage2 m st r).hasReacted = false) ∧
    (shouldReact st.theta st.lp = true →
      (computeStage2 m st r).lp.B2 =
        st.lp.B1 + (r.map (fun p => p.2 * claimRealisationRate m p.1)).sum ∧
      (computeStage2 m st r).reactions = r) ∧
    claimRealisationRate m "draw_repo_line" = m.repoAvailPct ∧
    claimRealisationRate m "draw_rcf" = 4/5 ∧
    claimRealisationRate m "boe_facility" = 19/20 ∧
    claimRealisationRate m "redeem_mmf" = 9/10 ∧
    claimRealisationRate m "seek_repo" = m.repoAvailPct ∧
    claimRealisationRate m "sell_gilt" =
      max (1/2) (1 - m.giltBidAskSpreadBps / 100) := by
  refine ⟨fun h => ?_, fun h => ?_, rfl, rfl, rfl, rfl, rfl, rfl⟩
  · simp [computeStage2, h]
  · simp [computeStage2, h, mitigationOf_eq_sum]

/-- Witness for C3's amended theorem at a concrete reacting state. -/
theorem stage2_mitigation_witness :
    shouldReact (0 : ℚ) { B0 := 1, B1 := 0, E1 := 1 } = true ∧
    (computeStage2 { repoAvailPct := 1/2 }
        { theta := 0, lp := { B0 := 1, B1 := 0, E1 := 1 },
          hasReacted := false, reactions := [] }
        [("seek_repo", 10)]).lp.B2 =
      (0 : ℚ) + ([("seek_repo", (10 : ℚ))].map
        (fun p => p.2 * claimRealisationRate { repoAvailPct := 1/2 } p.1)).sum := by
  refine ⟨by norm_num [shouldReact], ?_⟩
  exact ((stage2_mitigation { repoAvailPct := 1/2 }
    { theta := 0, lp := { B0 := 1, B1 := 0, E1 := 1 },
      hasReacted := false, reactions := [] }
    [("seek_repo", 10)]).2.1 (by norm_num [shouldReact])).1

/-- Counterexample to C3 as stated: with repo-market availability 0.5, an
insurer-style reaction map holding a committed-repo-line draw of 100 and an
RCF draw of 100 is credited to B2 as 100 * 0.5 + 100 * 0.8 = 130, not as the
claimed facility-draw realisation 0.95 * 200 = 190. -/
theorem stage2_insurer_draws_counterexample :
    (computeStage2 { repoAvailPct := 1/2 }
        { theta := 0, lp := { B0 := 1, B1 := 0, E1 := 1 },
          hasReacted := false, reactions := [] }
        [("draw_repo_line", 100), ("draw_rcf", 100)]).lp.B2 = 130 ∧
    ((0 : ℚ) + (19/20) * (100 + 100) = 190) ∧ ((130 : ℚ) ≠ 190) := by
  refine ⟨?_, by norm_num, by norm_num⟩
  have hsr : shouldReact (0 : ℚ)
      ({ B0 := 1, B1 := 0, E1 := 1 } : LiquidityPosition) = true := by
    norm_num [shouldReact]
  have h1 : claimRealisationRate { repoAvailPct := 1/2 } "draw_repo_line" = 1/2 := rfl
  have h2 : claimRealisationRate { repoAvailPct := 1/2 } "draw_rcf" = 4/5 := rfl
  simp only [computeStage2, hsr, Bool.true_eq_false, if_false, mitigationOf_eq_sum,
    List.map_cons, List.map_nil, List.sum_cons, List.sum_nil, h1, h2]
  norm_num

/-- Summing a pointwise difference over a list splits into a difference of
sums. -/
theorem sum_map_sub {α : Type} (l : List α) (f g : α → ℚ) :
    (l.map (fun a => f a - g a)).sum = (l.map f).sum - (l.map g).sum := by
  induction l with
  | nil => simp
  | cons a l ih =>
    simp only [List.map_cons, List.sum_cons, ih]
    ring

/-- Every per-agent term of the amplification denominator is at least the
flooring epsilon, so the denominator of a nonempty population is positive. -/
theorem totalDirect_pos (rows : List AmpRow) (hne : rows ≠ []) :
    0 < totalDirect rows := by
  unfold totalDirect
  apply List.sum_pos
  · intro x hx
    rcases List.mem_map.mp hx with ⟨r, _, rfl⟩
    exact lt_of_lt_of_le (by norm_num [ampEps]) (le_max_right _ _)
  · simpa using hne

/-- Same positivity for the floored numerator. -/
theorem totalWithFeedback_pos (rows : List AmpRow) (hne : rows ≠ []) :
    0 < totalWithFeedback rows := by
  unfold totalWithFeedback
  apply List.sum_pos
  · intro x hx
    rcases List.mem_map.mp hx with ⟨r, _, rfl⟩
    exact lt_of_lt_of_le (by norm_num [ampEps]) (le_max_right _ _)
  · simpa using hne

/-- C4 (amended): for a nonempty population the reported System-Wide
amplification equals the double-floored quotient
(sum of max(B0-B3, 0.001)) / (sum of max(B0-B1, 0.001)); it is strictly
positive, and it coincides with the claimed formula
(sum B0 - sum B3) / (floored denominator) whenever every agent's B0 - B3 is
at least the epsilon — but the numerator terms are floored per agent too,
and the value is not in general >= 1. -/
theorem systemWideAmp_characterisation (rows : List AmpRow) (hne : rows ≠ []) :
    0 < systemWideAmp rows ∧
    ((∀ r ∈ rows, ampEps ≤ r.b0 - r.b3) →
      systemWideAmp rows = claimSystemWideAmp rows) := by
  have hd := totalDirect_pos rows hne
  constructor
  · unfold systemWideAmp
    rw [if_pos hd]
    exact div_pos (totalWithFeedback_pos rows hne) hd
  · intro hfloor
    unfold systemWideAmp claimSystemWideAmp
    rw [if_pos hd, if_pos hd]
    congr 1
    unfold totalWithFeedback
    have : rows.map (fun r => max (r.b0 - r.b3) ampEps) =
        rows.map (fun r => r.b0 - r.b3) := by
      apply List.map_congr_left
      intro r hr
      exact max_eq_left (hfloor r hr)
    rw [this, sum_map_sub]

/-- Witness for C4's amended theorem at a one-agent population. -/
theorem systemWideAmp_characterisation_witness :
    0 < systemWideAmp [{ b0 := 10, b1 := 5, b3 := 9 }] ∧
    systemWideAmp [{ b0 := 10, b1 := 5, b3 := 9 }] =
      claimSystemWideAmp [{ b0 := 10, b1 := 5, b3 := 9 }] := by
  have h := systemWideAmp_characterisation [{ b0 := 10, b1 := 5, b3 := 9 }]
    (by simp)
  refine ⟨h.1, h.2 ?_⟩
  intro r hr
  rw [List.mem_singleton] at hr
  subst hr
  norm_num [ampEps]

/-- Counterexample to C4 as stated: the code floors each agent's numerator
term at 0.001 as well, so for an agent with B0 = 10, B1 = 5, B3 = 10 the
reported System-Wide value is 0.001/5, not the claimed (10 - 10)/5 = 0; and
for an agent with B0 = 10, B1 = 5, B3 = 9 (stage-2 mitigation in excess of
stage-3 loss) the reported value is 1/5, which is below the claimed lower
bound 1.0. -/
theorem systemWideAmp_counterexample :
    systemWideAmp [{ b0 := 10, b1 := 5, b3 := 10 }] ≠
      claimSystemWideAmp [{ b0 := 10, b1 := 5, b3 := 10 }] ∧
    systemWideAmp [{ b0 := 10, b1 := 5, b3 := 9 }] < 1 := by
  constructor <;>
    norm_num [systemWideAmp, claimSystemWideAmp, totalDirect, totalWithFeedback,
      ampEps, max_def]

/-- A foldl whose step never decreases the accumulator is bounded below by
its initial value. -/
theorem le_foldl_of_step {α : Type} (f : ℚ → α → ℚ) (l : List α) (init : ℚ)
    (h : ∀ acc : ℚ, ∀ a ∈ l, acc ≤ f acc a) : init ≤ l.foldl f init := by
  induction l generalizing init with
  | nil => exact le_refl _
  | cons a l ih =>
    simp only [List.foldl_cons]
    calc init ≤ f init a := h init a (List.mem_cons_self a l)
    _ ≤ l.foldl f (f init a) :=
      ih (f init a) (fun acc b hb => h acc b (List.mem_cons_of_mem a hb))

/-- The hedge-fund bilateral channel is nonnegative for nonnegative repo
borrowing and bank reaction sizes. -/
theorem hfBilateral_nonneg (s : ℚ) (repoBorrowing : Option ℚ)
    (banks : List BankFeedbackView) (hs : 0 ≤ s)
    (hrb : ∀ x, repoBorrowing = some x → 0 ≤ x)
    (hb : ∀ b ∈ banks, 0 ≤ b.reactionSize) :
    0 ≤ hfBilateral s repoBorrowing banks := by
  apply le_foldl_of_step
  intro acc b hbmem
  cases hcase : b.hasReacted with
  | false => simp [hcase]
  | true =>
    cases hrep : repoBorrowing with
    | none => simp [hcase, hrep]
    | some repo =>
      simp only [hcase, hrep, if_true, le_add_iff_nonneg_right]
      have h1 : (0 : ℚ) ≤ repo := hrb repo hrep
      have h2 : (0 : ℚ) ≤ b.reactionSize / max b.B0 1 :=
        div_nonneg (hb b hbmem) (le_trans zero_le_one (le_max_right _ _))
      have := mul_nonneg (mul_nonneg (mul_nonneg h1 h2) hs)
        (by norm_num : (0 : ℚ) ≤ 5/100)
      linarith

/-- The bank counterparty channel is nonnegative: reacting hedge funds have
nonnegative E1 and repo borrowing. -/
theorem bankBilateral_nonneg (s : ℚ) (hfs : List HFFeedbackView) (hs : 0 ≤ s)
    (hhf : ∀ h ∈ hfs, h.hasReacted = true → 0 ≤ h.E1)
    (hhfr : ∀ h ∈ hfs, ∀ x, h.repoBorrowing = some x → 0 ≤ x) :
    0 ≤ bankBilateral s hfs := by
  apply le_foldl_of_step
  intro acc hf hmem
  cases hcase : hf.hasReacted with
  | false => simp [hcase]
  | true =>
    simp only [hcase, if_true, le_add_iff_nonneg_right]
    have h1 : (0 : ℚ) ≤ hf.E1 / max hf.B0 1 :=
      div_nonneg (hhf hf hmem hcase) (le_trans zero_le_one (le_max_right _ _))
    have h2 : (0 : ℚ) ≤ (match hf.repoBorrowing with | some x => x | none => 0) := by
      cases hrep : hf.repoBorrowing with
      | none => simp
      | some x => simpa using hhfr hf hmem x hrep
    have h3 : (0 : ℚ) ≤
        (match hf.repoBorrowing with | some x => x | none => 0) /
          max (hf.nConnectedBanks : ℚ) 1 :=
      div_nonneg h2 (le_trans zero_le_one (le_max_right _ _))
    have := mul_nonneg (mul_nonneg (mul_nonneg h1 h3)
      (by norm_num : (0 : ℚ) ≤ 5/1000)) hs
    linarith

/-- The pooled-fund redemption channel is nonnegative for nonnegative NBFI
reaction sizes. -/
theorem oefBilateral_nonneg (redeemers : List RedeemerView)
    (hrd : ∀ n ∈ redeemers, 0 ≤ n.reactionSize) :
    0 ≤ oefBilateral redeemers := by
  apply le_foldl_of_step
  intro acc n hmem
  cases hcase : n.hasReacted with
  | false => simp [hcase]
  | true =>
    simp only [hcase, if_true, le_add_iff_nonneg_right]
    exact mul_nonneg (hrd n hmem) (by norm_num)

/-- The market-broadcast channel is nonnegative for nonnegative item amounts
and a nonnegative reacting fraction. -/
theorem marketBroadcast_nonneg (s reactingFrac : ℚ)
    (items : List LiquidItemView) (hs : 0 ≤ s) (hf : 0 ≤ reactingFrac)
    (hit : ∀ it ∈ items, 0 ≤ it.amount) :
    0 ≤ marketBroadcast s reactingFrac items := by
  apply le_foldl_of_step
  intro acc it hmem
  simp only [le_add_iff_nonneg_right]
  apply List.sum_nonneg
  intro x hx
  rcases List.mem_map.mp hx with ⟨sens, _, rfl⟩
  have h1 : (0 : ℚ) ≤ it.amount * |sens| := mul_nonneg (hit it hmem) (abs_nonneg _)
  have := mul_nonneg (mul_nonneg (mul_nonneg (mul_nonneg h1
    (by norm_num : (0 : ℚ) ≤ 1/10000)) hs)
    (by norm_num : (0 : ℚ) ≤ 5/100)) hf
  linarith

/-- C5: every per-iteration stage-3 E2 contribution is nonnegative (vix is
arbitrary, sqrtS stands for the square root of the volatility multiplier
s = max(1, vix/15), so 1 <= sqrtS; amounts, reaction sizes and the E1 of
any reacted hedge fund are nonnegative on reachable states); disabling
feedback sets E2 = 0 and B3 = B2 for every agent; consequently, for two runs
over the same population, network and scenario that agree per agent on B0
and B1 and in which feedback can only lower final B3 (b3On <= b3Off), the
System-Wide amplification with feedback enabled is at least the one with
feedback disabled. -/
theorem stage3_feedback_monotone (vix sqrtS : ℚ)
    (numReacting numAgents sameTypeReacting sameTypeTotal : ℕ)
    (banks : List BankFeedbackView) (hfs : List HFFeedbackView)
    (redeemers : List RedeemerView) (t : FeedbackTarget)
    (lp : LiquidityPosition) (rows : List AmpPairRow)
    (hsq : 1 ≤ sqrtS)
    (hb : ∀ b ∈ banks, 0 ≤ b.reactionSize)
    (hrb : ∀ x, t.repoBorrowing = some x → 0 ≤ x)
    (hhf : ∀ h ∈ hfs, h.hasReacted = true → 0 ≤ h.E1)
    (hhfr : ∀ h ∈ hfs, ∀ x, h.repoBorrowing = some x → 0 ≤ x)
    (hrd : ∀ n ∈ redeemers, 0 ≤ n.reactionSize)
    (hit : ∀ it ∈ t.liquidItems, 0 ≤ it.amount)
    (ht : 0 ≤ t.reactionSize)
    (hrow : ∀ r ∈ rows, r.b3On ≤ r.b3Off) :
    0 ≤ stage3Contribution vix sqrtS numReacting numAgents sameTypeReacting
        sameTypeTotal banks hfs redeemers t ∧
    (disableFeedback lp).E2 = 0 ∧
    (disableFeedback lp).B3 = lp.B2 ∧
    systemWideAmp (rows.map offRow) ≤ systemWideAmp (rows.map onRow) := by
  refine ⟨?_, rfl, rfl, ?_⟩
  · unfold stage3Contribution
    split
    · exact le_refl 0
    · have hs : (0 : ℚ) ≤ max 1 (vix / 15) :=
        le_trans zero_le_one (le_max_left _ _)
      have hbil : (0 : ℚ) ≤
          match t.type with
          | .hedgeFund => hfBilateral (max 1 (vix / 15)) t.repoBorrowing banks
          | .bank => bankBilateral (max 1 (vix / 15)) hfs
          | .oefMMF => oefBilateral redeemers
          | _ => 0 := by
        cases t.type with
        | hedgeFund => exact hfBilateral_nonneg _ _ _ hs hrb hb
        | bank => exact bankBilateral_nonneg _ _ hs hhf hhfr
        | oefMMF => exact oefBilateral_nonneg _ hrd
        | ldiPension => exact le_refl 0
        | insurer => exact le_refl 0
      have hbc : (0 : ℚ) ≤ marketBroadcast (max 1 (vix / 15))
          ((numReacting : ℚ) / (numAgents : ℚ)) t.liquidItems :=
        marketBroadcast_nonneg _ _ _ hs
          (div_nonneg (Nat.cast_nonneg _) (Nat.cast_nonneg _)) hit
      have hrep : (0 : ℚ) ≤
          if t.hasReacted then t.reactionSize * (sqrtS - 1) * (15/100) else 0 := by
        split
        · exact mul_nonneg (mul_nonneg ht (by linarith)) (by norm_num)
        · exact le_refl 0
      have hcrowd : (0 : ℚ) ≤
          if 0 < sameTypeTotal ∧ t.hasReacted then
            t.reactionSize *
              (((sameTypeReacting : ℚ) / (sameTypeTotal : ℚ)) ^ 2 *
                max 1 (vix / 15) * (3/100))
          else 0 := by
        split
        · exact mul_nonneg ht (mul_nonneg (mul_nonneg (sq_nonneg _) hs)
            (by norm_num))
        · exact le_refl 0
      linarith
  · have hd_eq : totalDirect (rows.map onRow) = totalDirect (rows.map offRow) := by
      unfold totalDirect
      rw [List.map_map, List.map_map]
      rfl
    have ht_le : totalWithFeedback (rows.map offRow) ≤
        totalWithFeedback (rows.map onRow) := by
      unfold totalWithFeedback
      rw [List.map_map, List.map_map]
      apply List.sum_le_sum
      intro r hr
      exact max_le_max (sub_le_sub_left (hrow r hr) r.b0) (le_refl ampEps)
    unfold systemWideAmp
    rw [hd_eq]
    split
    · next hpos => exact div_le_div_of_nonneg_right ht_le hpos.le
    · exact le_refl 1

/-- Witness for C5 at a concrete reacting hedge-fund target and a one-agent
pair of runs. -/
theorem stage3_feedback_monotone_witness :
    0 ≤ stage3Contribution 30 (3/2) 1 2 1 2
        [{ hasReacted := true, reactionSize := 5, B0 := 10 }] [] []
        { type := .hedgeFund, hasReacted := true, reactionSize := 3,
          repoBorrowing := some 4,
          liquidItems := [{ amount := 100, sensitivities := [2] }] } ∧
    (disableFeedback { B2 := 7 }).E2 = 0 ∧
    (disableFeedback { B2 := 7 }).B3 = ({ B2 := 7 } : LiquidityPosition).B2 ∧
    systemWideAmp ([{ b0 := 10, b1 := 5, b3On := 4, b3Off := 5 }].map offRow) ≤
      systemWideAmp ([{ b0 := 10, b1 := 5, b3On := 4, b3Off := 5 }].map onRow) := by
  apply stage3_feedback_monotone
  · norm_num
  · intro b hb
    simp only [List.mem_singleton] at hb
    subst hb
    norm_num
  · intro x hx
    simp only [Option.some.injEq] at hx
    subst hx
    norm_num
  · simp
  · simp
  · simp
  · intro it hit
    simp only [List.mem_singleton] at hit
    subst hit
    norm_num
  · norm_num
  · intro r hr
    simp only [List.mem_singleton] at hr
    subst hr
    norm_num

/-- C6 is refuted by the code: BankAgent.__init__ forwards the keyword
argument buffer_usability to BaseAgent.__init__, whose parameter list is
(name, agent_type, theta, size_factor) with no **kwargs, so constructing any
bank raises TypeError before a run can start; the other four variants'
super() calls bind.  This theorem evaluates the keyword-binding check at the
exact calls in the source. -/
theorem bank_constructor_type_error :
    superCallAccepted bankSuperKeywords = false ∧
    superCallAccepted hedgeFundSuperKeywords = true ∧
    superCallAccepted ldiSuperKeywords = true ∧
    superCallAccepted insurerSuperKeywords = true ∧
    superCallAccepted oefSuperKeywords = true := by
  refine ⟨?_, ?_, ?_, ?_, ?_⟩ <;> rfl

/-- C8 (amended): assess_repo_request returns 0 for an unconnected
requester; for a connected one it returns min(amount, capacity x
willingness-to-extend-new x risk appetite x willingness factor), where the
willingness factor falls linearly from 1.0 at zero stress to 0.0 at the
refusal threshold with stress measured as E1/max(B0, 1) — equal to the
claimed E1/B0 whenever B0 >= 1 — and a nonnegative request is answered with
exactly 0 from the threshold upward. -/
theorem assessRepoRequest_characterisation (net : Net) (bankName : String)
    (bk : BankState) (requester : String) (amount : ℚ) (hamt : 0 ≤ amount) :
    (requester ∉ allConnectedTo net bankName →
      assessRepoRequest net bankName bk requester amount = 0) ∧
    (requester ∈ allConnectedTo net bankName →
      assessRepoRequest net bankName bk requester amount =
        min amount (bk.repoCapacity * bk.willingnessToExtendNew *
          bk.riskAppetite *
          max 0 (1 - bk.lp.E1 / max bk.lp.B0 1 / bankRepoRefusalStressThreshold))) ∧
    (requester ∈ allConnectedTo net bankName →
      bankRepoRefusalStressThreshold ≤ bk.lp.E1 / max bk.lp.B0 1 →
      assessRepoRequest net bankName bk requester amount = 0) ∧
    (1 ≤ bk.lp.B0 →
      assessRepoRequest net bankName bk requester amount =
        claimAssessRepoRequest net bankName bk requester amount) := by
  refine ⟨fun hmem => ?_, fun hmem => ?_, fun hmem hstress => ?_, fun hb0 => ?_⟩
  · simp [assessRepoRequest, hmem]
  · simp only [assessRepoRequest, if_pos hmem]
  · simp only [assessRepoRequest, if_pos hmem]
    have hsc : max 0 (1 - bk.lp.E1 / max bk.lp.B0 1 / bankRepoRefusalStressThreshold)
        = 0 := by
      apply max_eq_left
      have hpos : (0 : ℚ) < bankRepoRefusalStressThreshold := by
        norm_num [bankRepoRefusalStressThreshold]
      have : (1 : ℚ) ≤ bk.lp.E1 / max bk.lp.B0 1 / bankRepoRefusalStressThreshold :=
        (one_le_div hpos).mpr hstress
      linarith
    rw [hsc, mul_zero, min_eq_right hamt]
  · unfold assessRepoRequest claimAssessRepoRequest
    rw [max_eq_left hb0]

/-- Witness for C8's amended theorem: an unconnected requester gets 0, and
with B0 >= 1 the source function and the claim's formula agree. -/
theorem assessRepoRequest_characterisation_witness :
    assessRepoRequest { bankInsurerEdges := [("B", "I")] } "B"
      { lp := { B0 := 2, E1 := 1 }, riskAppetite := 1/2,
        repoCapacity := 1000, willingnessToExtendNew := 1 } "Q" 5 = 0 ∧
    assessRepoRequest { bankInsurerEdges := [("B", "I")] } "B"
      { lp := { B0 := 2, E1 := 1 }, riskAppetite := 1/2,
        repoCapacity := 1000, willingnessToExtendNew := 1 } "I" 5 =
      claimAssessRepoRequest { bankInsurerEdges := [("B", "I")] } "B"
        { lp := { B0 := 2, E1 := 1 }, riskAppetite := 1/2,
          repoCapacity := 1000, willingnessToExtendNew := 1 } "I" 5 := by
  constructor
  · refine (assessRepoRequest_characterisation _ _ _ _ 5 (by norm_num)).1 ?_
    simp [allConnectedTo, getConnectedHFs, getConnectedLDIs, getConnectedInsurers]
  · exact (assessRepoRequest_characterisation _ _ _ _ 5 (by norm_num)).2.2.2
      (by norm_num)

/-- Counterexample to C8 as stated: a bank with B0 = 1/2 and E1 = 1/5 has
claimed stress E1/B0 = 0.4, beyond the refusal threshold 0.266353, so the
claim's formula refuses a connected insurer's request of 1 outright; the
source divides by max(B0, 1) = 1 instead, giving stress 0.2 and granting
the full 1. -/
theorem assessRepoRequest_counterexample :
    assessRepoRequest { bankInsurerEdges := [("B", "I")] } "B"
      { lp := { B0 := 1/2, E1 := 1/5 }, riskAppetite := 1,
        repoCapacity := 1000, willingnessToExtendNew := 1 } "I" 1 = 1 ∧
    claimAssessRepoRequest { bankInsurerEdges := [("B", "I")] } "B"
      { lp := { B0 := 1/2, E1 := 1/5 }, riskAppetite := 1,
        repoCapacity := 1000, willingnessToExtendNew := 1 } "I" 1 = 0 ∧
    ((1 : ℚ) ≠ 0) := by
  refine ⟨?_, ?_, by norm_num⟩
  · have hmem : "I" ∈ allConnectedTo
        ({ bankInsurerEdges := [("B", "I")] } : Net) "B" := by
      simp [allConnectedTo, getConnectedHFs, getConnectedLDIs, getConnectedInsurers]
    rw [assessRepoRequest, if_pos hmem]
    norm_num [bankRepoRefusalStressThreshold, max_def, min_def]
  · have hmem : "I" ∈ allConnectedTo
        ({ bankInsurerEdges := [("B", "I")] } : Net) "B" := by
      simp [allConnectedTo, getConnectedHFs, getConnectedLDIs, getConnectedInsurers]
    rw [claimAssessRepoRequest, if_pos hmem]
    norm_num [bankRepoRefusalStressThreshold, max_def, min_def]

/-- C9 (amended): compute_initial_buffer and LDI compute_margin_calls are
idempotent — a second call returns the same value and leaves the agent state
exactly as after the first (the LDI call rewrites yield_buffer_consumed_pct
to the same market-determined value) — and compute_mtm_impact reads no
mutable state at all; OEF compute_redemptions also returns the same value on
an immediately repeated call, but each call adds its result to
cumulative_redemption_inflows_mm, so the counter after two calls has
advanced by twice the returned value instead of once. -/
theorem idempotence_and_redemption_counter (bs : List BSItem)
    (lp : LiquidityPosition) (m : MarketState) (st : LDIState) (os : OEFState)
    (rs : List NBFIView) :
    computeInitialBuffer bs (computeInitialBuffer bs lp) =
      computeInitialBuffer bs lp ∧
    ldiComputeMarginCalls m ((ldiComputeMarginCalls m st).2) =
      ldiComputeMarginCalls m st ∧
    (computeRedemptions ((computeRedemptions os rs).2) rs).1 =
      (computeRedemptions os rs).1 ∧
    (computeRedemptions ((computeRedemptions os rs).2) rs).2.cumulativeRedemptionInflows =
      os.cumulativeRedemptionInflows + 2 * (computeRedemptions os rs).1 := by
  refine ⟨rfl, ?_, rfl, ?_⟩
  · cases h : st.derivNotional with
    | none => simp [ldiComputeMarginCalls, h]
    | some deriv => simp [ldiComputeMarginCalls, h]
  · show os.cumulativeRedemptionInflows + oefRedemptionsValue os rs +
        oefRedemptionsValue os rs =
      os.cumulativeRedemptionInflows + 2 * oefRedemptionsValue os rs
    ring

/-- Counterexample to C9 as stated: on the concrete pooled fund oefSt0 with
redeemer list oefRs, each compute_redemptions call returns 100 but also adds
100 to cumulative_redemption_inflows_mm; after one call the swing-pricing
gate in compute_reactions stays closed (ratio 0.1), after a second call it
opens (ratio 0.2), so the repeated read-only query changed a later
computation. -/
theorem oef_redemption_counter_counterexample :
    (computeRedemptions oefSt0 oefRs).1 = 100 ∧
    ((computeRedemptions oefSt0 oefRs).2).cumulativeRedemptionInflows = 100 ∧
    ((computeRedemptions ((computeRedemptions oefSt0 oefRs).2)
        oefRs).2).cumulativeRedemptionInflows = 200 ∧
    oefComputeReactions ((computeRedemptions oefSt0 oefRs).2) = [] ∧
    oefComputeReactions ((computeRedemptions ((computeRedemptions oefSt0 oefRs).2)
        oefRs).2) = [("swing_pricing", 21/10)] ∧
    (([] : List (String × ℚ)) ≠ [("swing_pricing", 21/10)]) := by
  have hval : oefRedemptionsValue oefSt0 oefRs = 100 := by
    norm_num [oefRedemptionsValue, oefSt0, oefRs]
  refine ⟨?_, ?_, ?_, ?_, ?_, by simp⟩
  · simpa [computeRedemptions] using hval
  · simpa [computeRedemptions, oefSt0] using hval
  · simp [computeRedemptions, oefSt0, oefRs, oefRedemptionsValue]
    norm_num
  · norm_num [oefComputeReactions, computeRedemptions, oefSt0, oefRs,
      oefRedemptionsValue, max_def, min_def]
  · norm_num [oefComputeReactions, computeRedemptions, oefSt0, oefRs,
      oefRedemptionsValue, max_def, min_def]

/-- Filtering the edge block generated from one agent's picks on the
counterparty name keeps everything when the name matches and nothing
otherwise. -/
theorem block_filter_length (bl : List NetAgent) (xname target : String) :
    ((bl.map (fun b => (b.name, xname))).filter
      (fun e => e.2 == target)).length =
      if xname = target then bl.length else 0 := by
  induction bl with
  | nil => simp
  | cons b bl ih =>
    simp only [List.map_cons, List.filter_cons]
    by_cases h : xname = target
    · subst h
      simp [ih]
    · simp [h, ih]

/-- The number of build_network edges pointing at a counterparty name is
the total pick count over the loop agents bearing that name. -/
theorem flatMap_filter_length (pick : String → List NetAgent) (target : String)
    (l : List NetAgent) :
    ((l.flatMap (fun x => (pick x.name).map (fun b => (b.name, x.name)))).filter
        (fun e => e.2 == target)).length =
      ((l.filter (fun x => x.name == target)).map
        (fun x => (pick x.name).length)).sum := by
  induction l with
  | nil => simp
  | cons x l ih =>
    simp only [List.flatMap_cons, List.filter_append, List.length_append,
      List.filter_cons]
    by_cases h : x.name = target
    · simp [h, block_filter_length, ih]
    · simp [h, block_filter_length, ih]

/-- With globally distinct names, the loop agents bearing a member's name
are exactly that member. -/
theorem filter_name_eq_singleton (l : List NetAgent)
    (hnodup : (l.map NetAgent.name).Nodup) (a : NetAgent) (ha : a ∈ l) :
    l.filter (fun x => x.name == a.name) = [a] := by
  induction l with
  | nil => cases ha
  | cons x l ih =>
    simp only [List.map_cons, List.nodup_cons] at hnodup
    rcases List.mem_cons.mp ha with h | h
    · subst h
      have hnil : l.filter (fun y => y.name == a.name) = [] := by
        apply List.filter_eq_nil_iff.mpr
        intro y hy
        simp only [beq_iff_eq]
        intro hname
        exact hnodup.1 (hname ▸ List.mem_map_of_mem NetAgent.name hy)
      simp [List.filter_cons, hnil]
    · have hx : ¬ (x.name = a.name) :=
        fun hname => hnodup.1 (hname ▸ List.mem_map_of_mem NetAgent.name h)
      simp [List.filter_cons, hx, ih hnodup.2 h]

/-- C7: after build_network on a population with pairwise-distinct agent
names, under the numpy contracts for the pick oracles (each hedge fund
draws 2-3 distinct banks from the bank list; LDI and insurer draws are
banks), every hedge fund has between 2 and 3 bank edges inclusive and
every pooled fund has zero bank edges. -/
theorem network_degree_invariants (agents : List NetAgent)
    (pickBanksForHF pickBanksForLDI pickBanksForInsurer pickOEFs :
      String → List NetAgent)
    (hnodup : (agents.map NetAgent.name).Nodup)
    (hcnt : ∀ a ∈ agents, a.type = AgentType.hedgeFund →
      2 ≤ (pickBanksForHF a.name).length ∧ (pickBanksForHF a.name).length ≤ 3)
    (hbHF : ∀ a ∈ agents, a.type = AgentType.hedgeFund →
      ∀ b ∈ pickBanksForHF a.name, b ∈ agents ∧ b.type = AgentType.bank)
    (hbLDI : ∀ a ∈ agents, a.type = AgentType.ldiPension →
      ∀ b ∈ pickBanksForLDI a.name, b ∈ agents ∧ b.type = AgentType.bank)
    (hbINS : ∀ a ∈ agents, a.type = AgentType.insurer →
      ∀ b ∈ pickBanksForInsurer a.name, b ∈ agents ∧ b.type = AgentType.bank) :
    (∀ hf ∈ agents, hf.type = AgentType.hedgeFund →
      2 ≤ (getConnectedBanks (buildNetwork agents pickBanksForHF
            pickBanksForLDI pickBanksForInsurer pickOEFs) hf.name).length ∧
      (getConnectedBanks (buildNetwork agents pickBanksForHF
            pickBanksForLDI pickBanksForInsurer pickOEFs) hf.name).length ≤ 3) ∧
    (∀ oef ∈ agents, oef.type = AgentType.oefMMF →
      bankDegree (buildNetwork agents pickBanksForHF pickBanksForLDI
        pickBanksForInsurer pickOEFs) oef.name = 0) := by
  constructor
  · intro hf hmem htype
    have hval : (getConnectedBanks (buildNetwork agents pickBanksForHF
        pickBanksForLDI pickBanksForInsurer pickOEFs) hf.name).length =
        (pickBanksForHF hf.name).length := by
      simp only [getConnectedBanks, buildNetwork, List.length_map]
      rw [flatMap_filter_length]
      have hsub : ((agents.filter
          (fun a => a.type == AgentType.hedgeFund)).map NetAgent.name).Nodup :=
        hnodup.sublist (List.Sublist.map NetAgent.name
          (List.filter_sublist agents))
      have hmemf : hf ∈ agents.filter (fun a => a.type == AgentType.hedgeFund) :=
        List.mem_filter.mpr ⟨hmem, by simp [htype]⟩
      rw [filter_name_eq_singleton _ hsub hf hmemf]
      simp
    rw [hval]
    exact hcnt hf hmem htype
  · intro oef hmem htype
    have key : ∀ (l : List NetAgent) (pick : String → List NetAgent),
        (∀ x ∈ l, x ∈ agents ∧ x.type ≠ AgentType.oefMMF) →
        (∀ x ∈ l, ∀ b ∈ pick x.name, b ∈ agents ∧ b.type = AgentType.bank) →
        (l.flatMap (fun x => (pick x.name).map
          (fun b => (b.name, x.name)))).filter
          (fun e => e.1 == oef.name || e.2 == oef.name) = [] := by
      intro l pick hl hp
      apply List.filter_eq_nil_iff.mpr
      intro e he
      rcases List.mem_flatMap.mp he with ⟨x, hx, hex⟩
      rcases List.mem_map.mp hex with ⟨b, hb, rfl⟩
      simp only [Bool.or_eq_true, beq_iff_eq]
      rintro (h1 | h2)
      · have hbt := (hp x hx b hb).2
        have hbo : b = oef :=
          List.inj_on_of_nodup_map hnodup (hp x hx b hb).1 hmem h1
        rw [hbo, htype] at hbt
        exact absurd hbt (by decide)
      · have hxo : x = oef :=
          List.inj_on_of_nodup_map hnodup (hl x hx).1 hmem h2
        exact (hl x hx).2 (by rw [hxo, htype])
    have h1 := key (agents.filter (fun a => a.type == AgentType.hedgeFund))
      pickBanksForHF
      (fun x hx => ⟨(List.mem_filter.mp hx).1, by
        have := (List.mem_filter.mp hx).2
        simp only [beq_iff_eq] at this
        rw [this]
        decide⟩)
      (fun x hx => hbHF x (List.mem_filter.mp hx).1 (by
        have := (List.mem_filter.mp hx).2
        simpa only [beq_iff_eq] using this))
    have h2 := key (agents.filter (fun a => a.type == AgentType.ldiPension))
      pickBanksForLDI
      (fun x hx => ⟨(List.mem_filter.mp hx).1, by
        have := (List.mem_filter.mp hx).2
        simp only [beq_iff_eq] at this
        rw [this]
        decide⟩)
      (fun x hx => hbLDI x (List.mem_filter.mp hx).1 (by
        have := (List.mem_filter.mp hx).2
        simpa only [beq_iff_eq] using this))
    have h3 := key (agents.filter (fun a => a.type == AgentType.insurer))
      pickBanksForInsurer
      (fun x hx => ⟨(List.mem_filter.mp hx).1, by
        have := (List.mem_filter.mp hx).2
        simp only [beq_iff_eq] at this
        rw [this]
        decide⟩)
      (fun x hx => hbINS x (List.mem_filter.mp hx).1 (by
        have := (List.mem_filter.mp hx).2
        simpa only [beq_iff_eq] using this))
    simp only [bankDegree, buildNetwork]
    rw [h1, h2, h3]
    rfl

/-- Witness for C7 at the concrete five-agent population: the hedge fund H
ends with two bank edges and the pooled fund O with none. -/
theorem network_degree_invariants_witness :
    2 ≤ (getConnectedBanks demoNet "H").length ∧
    (getConnectedBanks demoNet "H").length ≤ 3 ∧
    bankDegree demoNet "O" = 0 := by
  have h := network_degree_invariants demoAgents demoPickHF demoPickNone
    demoPickNone demoPickNone
    (by decide)
    (by decide)
    (by decide)
    (by decide)
    (by decide)
  have hmemH : ({ name := "H", type := .hedgeFund } : NetAgent) ∈ demoAgents := by
    decide
  have hmemO : ({ name := "O", type := .oefMMF } : NetAgent) ∈ demoAgents := by
    decide
  have hh := h.1 { name := "H", type := .hedgeFund } hmemH rfl
  have ho := h.2 { name := "O", type := .oefMMF } hmemO rfl
  exact ⟨hh.1, hh.2, ho⟩

end SWES
